import Mathlib

/-!
Shallow embedding of `src/compare.py` (a carrier-invoice reconciliation
pipeline) and proofs about its line classifiers, row categorizer and
metrics aggregators.

Modelling conventions:
* A line of text is a `String` / `List Char`; the Python regexes are embedded
  as executable Lean functions with the exact backtracking semantics of the
  patterns used in the source (`re.match` anchoring, greedy runs over
  disjoint character classes, the single lazy group `(.+?)` realised as a
  shortest-first search, `re.findall` as a left-to-right non-overlapping scan).
* Character classes follow the ASCII meaning of `\d`, `\s`, `[A-Z]`, `[\d,]`.
* Python decimal values are embedded as exact rationals `ℚ`; `round(x, 3)` is
  embedded as round-half-to-even at three decimal places (`pyRound3`).
* Fallible numeric conversions (`int(...)`, `float(...)`) return `Option`;
  a raised `ValueError` is the `none` branch.
-/

/-- ASCII decimal digit, the `\d` class of the source's patterns. -/
def isDigitC (c : Char) : Bool := '0' ≤ c && c ≤ '9'

/-- Digit or grouping comma, the `[\d,]` class of the source's patterns. -/
def isDC (c : Char) : Bool := isDigitC c || c = ','

/-- ASCII whitespace, the `\s` class of the source's patterns. -/
def isWSC (c : Char) : Bool :=
  c = ' ' || c = '\t' || c = '\n' || c = '\r' || c = '\x0b' || c = '\x0c'

/-- Uppercase ASCII letter, the `[A-Z]` class of the Evri pattern. -/
def isUpperAZ (c : Char) : Bool := 'A' ≤ c && c ≤ 'Z'

/-- Match a nonempty greedy run of characters satisfying `p` (the `X+`
quantifier over a character class): returns the run and the rest. -/
def reqRun (p : Char → Bool) (l : List Char) : Option (List Char × List Char) :=
  match l.takeWhile p with
  | [] => none
  | c :: cs => some (c :: cs, l.dropWhile p)

/-- Match a single character satisfying `p`. -/
def reqChar (p : Char → Bool) (l : List Char) : Option (Char × List Char) :=
  match l with
  | [] => none
  | c :: cs => if p c then some (c, cs) else none

/-- Digit string to natural number, the value computed by Python's
`int` / `float` on a run of ASCII digits. -/
def natOfDigits (l : List Char) : ℕ :=
  l.foldl (fun n c => 10 * n + (c.toNat - 48)) 0

/-- Python `int(s)` on the comma-stripped quantity group: the group consists
of digits and commas, so after stripping it is either empty — on which
`int("")` raises `ValueError`, modelled as `none` — or a digit string. -/
def intOfDigits? (l : List Char) : Option ℤ :=
  if !l.isEmpty && l.all isDigitC then some ((natOfDigits l : ℤ)) else none

/-- Split a character list at its first `'.'`; `none` when there is none. -/
def splitDot : List Char → Option (List Char × List Char)
  | [] => none
  | c :: cs =>
    if c = '.' then some ([], cs)
    else (splitDot cs).map fun pr => (c :: pr.1, pr.2)

/-- Python `float(s)` on the decimal-token shapes produced by the source's
matchers: an optional digit run, a dot, a digit run (at least one of the two
runs nonempty), e.g. `"5.28"` or `".5"`.  Any other input at these call
sites cannot occur; it is mapped to `none` (`ValueError`). -/
def ratOfDecimal? (l : List Char) : Option ℚ :=
  match splitDot l with
  | none => none
  | some (a, b) =>
    if (a.all isDigitC && b.all isDigitC) && !(a.isEmpty && b.isEmpty) then
      some ((natOfDigits a : ℚ) + (natOfDigits b : ℚ) / (10 : ℚ) ^ b.length)
    else none

/-- Python `s.replace(",", "")`. -/
def stripCommas (l : List Char) : List Char := l.filter (· != ',')

/-- Python `s.strip()`: drop leading and trailing whitespace. -/
def pyStrip (l : List Char) : List Char :=
  ((l.dropWhile isWSC).reverse.dropWhile isWSC).reverse

/-- Anchored head of the FedEx shipment-row pattern
`^(\d{9,})\s+(\d{2}/\d{2}/\d{4})` from `parse_fedex` (src/compare.py:51):
a maximal run of at least nine digits at position 0, at least one whitespace
character, then a `dd/mm/yyyy` token.  Since `\d` and `\s` are disjoint the
greedy quantifiers never backtrack, so the regex is this deterministic scan.
Returns the two capture groups (shipment number, date token). -/
def fedexAnchor (l : List Char) : Option (List Char × List Char) :=
  let num := l.takeWhile isDigitC
  let l1 := l.dropWhile isDigitC
  let ws := l1.takeWhile isWSC
  let l2 := l1.dropWhile isWSC
  match l2 with
  | d1 :: d2 :: s1 :: m1 :: m2 :: s2 :: y1 :: y2 :: y3 :: y4 :: _ =>
    if 9 ≤ num.length && !ws.isEmpty &&
        isDigitC d1 && isDigitC d2 && s1 = '/' &&
        isDigitC m1 && isDigitC m2 && s2 = '/' &&
        isDigitC y1 && isDigitC y2 && isDigitC y3 && isDigitC y4 then
      some (num, [d1, d2, '/', m1, m2, '/', y1, y2, y3, y4])
    else none
  | _ => none

/-- One attempt of the decimal-token pattern `\d+\.\d+` at the head of `l`:
a maximal digit run, a dot, a maximal digit run.  Returns the token and the
rest of the line after it. -/
def tryDec (l : List Char) : Option (List Char × List Char) :=
  (reqRun isDigitC l).bind fun s1 =>
  (reqChar (fun c => c = '.') s1.2).bind fun s2 =>
  (reqRun isDigitC s2.2).bind fun s3 =>
  some (s1.1 ++ '.' :: s3.1, s3.2)

/-- The left-to-right non-overlapping scan of `re.findall(r"\d+\.\d+", line)`
(src/compare.py:61): at each position try the token pattern; on success emit
the token and continue after it, on failure advance one character.  `fuel`
bounds the recursion; each step consumes at least one character, so fuel
equal to the length of the input never runs out. -/
def findDecimalsFuel : Nat → List Char → List (List Char)
  | 0, _ => []
  | _ + 1, [] => []
  | f + 1, c :: rest =>
    match tryDec (c :: rest) with
    | some (tok, rem) => tok :: findDecimalsFuel f rem
    | none => findDecimalsFuel f rest

/-- All decimal-with-fraction tokens of a line, in line order. -/
def findDecimals (l : List Char) : List (List Char) := findDecimalsFuel l.length l

/-- Calendar date as parsed by `pd.to_datetime(..., format="%d/%m/%Y")`. -/
structure CalDate where
  day : ℕ
  month : ℕ
  year : ℕ
deriving DecidableEq

/-- Gregorian leap-year rule. -/
def isLeapYear (y : ℕ) : Bool := (y % 4 == 0 && y % 100 != 0) || y % 400 == 0

/-- Days in a month of the proleptic Gregorian calendar. -/
def daysInMonth (m y : ℕ) : ℕ :=
  if m = 2 then (if isLeapYear y then 29 else 28)
  else if m = 4 ∨ m = 6 ∨ m = 9 ∨ m = 11 then 30 else 31

/-- Date parsing `pd.to_datetime(s, format="%d/%m/%Y", errors="coerce")`
(src/compare.py:79) applied to a captured date token: the token must be
`dd/mm/yyyy` (which the capture group guarantees) and denote a valid
calendar date, otherwise the result is absent (`NaT` ↦ `none`).  The
pandas `Timestamp` range restriction (roughly years 1678–2262) is not
modelled; no claim depends on it. -/
def parseDate? (s : String) : Option CalDate :=
  match s.data with
  | [d1, d2, '/', m1, m2, '/', y1, y2, y3, y4] =>
    if isDigitC d1 && isDigitC d2 && isDigitC m1 && isDigitC m2 &&
        isDigitC y1 && isDigitC y2 && isDigitC y3 && isDigitC y4 then
      let d := natOfDigits [d1, d2]
      let m := natOfDigits [m1, m2]
      let y := natOfDigits [y1, y2, y3, y4]
      if 1 ≤ m ∧ m ≤ 12 ∧ 1 ≤ d ∧ d ≤ daysInMonth m y then some ⟨d, m, y⟩
      else none
    else none
  | _ => none

/-- One extracted FedEx shipment row (src/compare.py:67-74 plus the parsed
date column added at src/compare.py:78-83). -/
structure FedexRow where
  shipment_number : String
  shipment_date : String
  charge : ℚ
  raw_line : String
  shipment_date_parsed : Option CalDate
deriving DecidableEq

/-- The per-line behaviour of `parse_fedex` (src/compare.py:51-74): a line
yields a row exactly when the anchored shipment-number/date pattern matches
and the line contains at least one `\d+\.\d+` token; the charge is
`float(nums[-1])`, the last token in line order. -/
def parse_fedex_line (line : String) : Option FedexRow :=
  match fedexAnchor line.data with
  | none => none
  | some (num, date) =>
    match (findDecimals line.data).getLast? with
    | none => none
    | some tok =>
      match ratOfDecimal? tok with
      | none => none
      | some c =>
        some { shipment_number := num.asString
               shipment_date := date.asString
               charge := c
               raw_line := line
               shipment_date_parsed := parseDate? date.asString }

/-- The whole-document loop of `parse_fedex`: classify every line
independently, keep the matches in line order. -/
def parse_fedex (lines : List String) : List FedexRow :=
  lines.filterMap parse_fedex_line

/-- The fixed-shape tail of the Evri pattern
`\s+([\d,]+)\s+(\d+\.\d+)\s+[A-Z]\s+([\d,]+\.\d+)` from `parse_evri`
(src/compare.py:116), matched right after the lazily-chosen service name.
All adjacent quantified classes are disjoint, so the greedy quantifiers
never backtrack and the tail is a deterministic scan.  Returns the
quantity, unit-price and value capture groups. -/
def tailMatch (l : List Char) : Option (List Char × List Char × List Char) :=
  (reqRun isWSC l).bind fun s1 =>
  (reqRun isDC s1.2).bind fun s2 =>
  (reqRun isWSC s2.2).bind fun s3 =>
  (reqRun isDigitC s3.2).bind fun s4 =>
  (reqChar (fun c => c = '.') s4.2).bind fun s5 =>
  (reqRun isDigitC s5.2).bind fun s6 =>
  (reqRun isWSC s6.2).bind fun s7 =>
  (reqChar isUpperAZ s7.2).bind fun s8 =>
  (reqRun isWSC s8.2).bind fun s9 =>
  (reqRun isDC s9.2).bind fun s10 =>
  (reqChar (fun c => c = '.') s10.2).bind fun s11 =>
  (reqRun isDigitC s11.2).bind fun s12 =>
  some (s2.1, s4.1 ++ '.' :: s6.1, s10.1 ++ '.' :: s12.1)

/-- Lazy matching of the service-name group `(.+?)`: extend the name one
character at a time (shortest first, as the non-greedy quantifier demands),
testing the fixed-shape tail after each extension.  The `.` class matches
every character except a newline.  `acc` is the name matched so far. -/
def nameSearch (acc : List Char) :
    List Char → Option (List Char × (List Char × List Char × List Char))
  | [] => none
  | c :: rest =>
    if c = '\n' then none
    else
      match tailMatch rest with
      | some g => some (acc ++ [c], g)
      | none => nameSearch (acc ++ [c]) rest

/-- Backtracking over the greedy leading `^\s*`: try consuming `k` leading
whitespace characters first (the greedy engine starts with the maximal run
and gives back one character at a time on failure). -/
def ksearch (l : List Char) : Nat → Option (List Char × (List Char × List Char × List Char))
  | 0 => nameSearch [] l
  | k + 1 =>
    match nameSearch [] (l.drop (k + 1)) with
    | some r => some r
    | none => ksearch l k

/-- Full match of the Evri pattern
`^\s*(.+?)\s+([\d,]+)\s+(\d+\.\d+)\s+[A-Z]\s+([\d,]+\.\d+)` against a line,
with Python's backtracking order: longest `\s*` run first, shortest name
first.  Returns the four capture groups (name, quantity, price, value). -/
def evriMatch (l : List Char) :
    Option (List Char × (List Char × List Char × List Char)) :=
  ksearch l (l.takeWhile isWSC).length

/-- One extracted Evri service line (src/compare.py:128-136). -/
structure EvriRow where
  service : String
  quantity : ℤ
  price : ℚ
  value : ℚ
  raw_line : String
deriving DecidableEq

/-- Result of running `parse_evri`'s loop body on one line: no match, a
complete record, or an uncaught `ValueError` from a numeric conversion. -/
inductive EvriOutcome where
  | noMatch
  | ok (r : EvriRow)
  | valueError
deriving DecidableEq

/-- The per-line behaviour of `parse_evri` (src/compare.py:116-136): match
the five-part shape, then convert quantity (`int`, after stripping commas),
unit price (`float`) and value (`float`, after stripping commas), and strip
whitespace around the service name.  A failed conversion raises, which the
embedding reports as `valueError`. -/
def parse_evri_line (line : String) : EvriOutcome :=
  match evriMatch line.data with
  | none => .noMatch
  | some (nm, q, p, v) =>
    match intOfDigits? (stripCommas q) with
    | none => .valueError
    | some qn =>
      match ratOfDecimal? p with
      | none => .valueError
      | some pr =>
        match ratOfDecimal? (stripCommas v) with
        | none => .valueError
        | some vl =>
          .ok { service := (pyStrip nm).asString
                quantity := qn
                price := pr
                value := vl
                raw_line := line }

/-- The whole-document loop of `parse_evri`: classify every line in order;
an uncaught conversion error on any line aborts the whole call. -/
def parse_evri (lines : List String) : Option (List EvriRow) :=
  lines.foldr
    (fun line acc =>
      match parse_evri_line line, acc with
      | .valueError, _ => none
      | _, none => none
      | .noMatch, some rs => some rs
      | .ok r, some rs => some (r :: rs))
    (some [])

/-- The spec's round-trip Evri example line. -/
def scottishLine : String := "Scottish Highlands & Islands Parcel 36 5.28 S 190.08"

/-- The record extracted from `scottishLine`. -/
def scottishRow : EvriRow :=
  { service := "Scottish Highlands & Islands Parcel", quantity := 36
    price := 132 / 25, value := 4752 / 25, raw_line := scottishLine }

/-- The spec's round-trip FedEx example line. -/
def fedexExLine : String := "123456789 13/10/2025 FedEx Priority 2.50 17.10"

/-- The record extracted from `fedexExLine`. -/
def fedexExRow : FedexRow :=
  { shipment_number := "123456789", shipment_date := "13/10/2025"
    charge := 171 / 10, raw_line := fedexExLine
    shipment_date_parsed := some ⟨13, 10, 2025⟩ }

/-- ASCII lowercasing of one character, the effect of matching with
`case=False` on the ASCII search words used by the source. -/
def lowerAscii (c : Char) : Char :=
  if 'A' ≤ c ∧ c ≤ 'Z' then Char.ofNat (c.toNat + 32) else c

/-- Whether `t` occurs as a contiguous run inside `l`. -/
def containsRun (t : List Char) : List Char → Bool
  | [] => t.isEmpty
  | c :: rest => t.isPrefixOf (c :: rest) || containsRun t rest

/-- Case-insensitive substring test, the embedding of
`series.str.contains(pat, case=False, na=False)` for the plain-text
patterns used by the source (none of them has a regex metacharacter). -/
def containsCI (s pat : String) : Bool :=
  containsRun (pat.data.map lowerAscii) (s.data.map lowerAscii)

/-- The despatch-like test of `split_evri_core` (src/compare.py:169-173). -/
def despatchLike (r : EvriRow) : Bool :=
  containsCI r.service "Despatch" || containsCI r.service "Parcel" ||
    containsCI r.service "Packet"

/-- The return test of `split_evri_core` (src/compare.py:176). -/
def returnMask (r : EvriRow) : Bool := containsCI r.service "Return"

/-- The repackaging test of `split_evri_core` (src/compare.py:179). -/
def repackMask (r : EvriRow) : Bool := containsCI r.service "Repackaged"

/-- The despatch-row predicate `despatch_like_mask & ~return_mask & ~repack_mask`
of `split_evri_core` (src/compare.py:181). -/
def despatchMask (r : EvriRow) : Bool :=
  despatchLike r && !returnMask r && !repackMask r

/-- `clean_evri` (src/compare.py:145-153): split the extracted rows into
core rows (`value > 0`) and excluded rows (`value == 0`), keeping row
order; returns `(core, excluded)`. -/
def clean_evri (rs : List EvriRow) : List EvriRow × List EvriRow :=
  (rs.filter (fun r => decide (0 < r.value)),
   rs.filter (fun r => decide (r.value = 0)))

/-- `split_evri_core` (src/compare.py:156-184): split core rows into
despatch rows (`mask`) and extra rows (`~mask`); returns
`(despatch_rows, extra_rows)`. -/
def split_evri_core (core : List EvriRow) : List EvriRow × List EvriRow :=
  (core.filter despatchMask, core.filter (fun r => !despatchMask r))

/-- Python `round(x, 3)` on an exact value: round half to even at three
decimal places. -/
def pyRound3 (q : ℚ) : ℚ :=
  let x := q * 1000
  let f : ℤ := ⌊x⌋
  let r : ℚ := x - (f : ℚ)
  let n : ℤ :=
    if r < 1 / 2 then f
    else if 1 / 2 < r then f + 1
    else if f % 2 = 0 then f else f + 1
  (n : ℚ) / 1000

/-- The summary dictionary built by `compute_fedex_metrics` /
`compute_evri_metrics`. -/
structure Metrics where
  despatches : ℤ
  spend : ℚ
  avg_cost : ℚ
  variance : ℚ
  total_difference : ℚ
  status : String
deriving DecidableEq

/-- The all-zero sentinel returned when there is no despatch data
(src/compare.py:200-207 and 247-254). -/
def noDataMetrics : Metrics :=
  { despatches := 0, spend := 0, avg_cost := 0, variance := 0
    total_difference := 0, status := "No data" }

/-- The status chain shared by both aggregators (src/compare.py:214-219
and 263-268). -/
def statusOf (variance : ℚ) : String :=
  if 0 < variance then "Over the fixed rate"
  else if variance < 0 then "Under the fixed rate"
  else "On the fixed rate"

/-- `compute_fedex_metrics` (src/compare.py:192-228): count is the number
of rows; zero count short-circuits to the sentinel; otherwise spend,
average, variance and total difference are each rounded to three decimals,
each computed from the already-rounded previous value. -/
def compute_fedex_metrics (df : List FedexRow) (fixed_rate : ℚ) : Metrics :=
  let despatches := df.length
  if despatches = 0 then noDataMetrics
  else
    let spend := pyRound3 ((df.map (fun r => r.charge)).sum)
    let avg_cost := pyRound3 (spend / (despatches : ℚ))
    let variance := pyRound3 (avg_cost - fixed_rate)
    let total_difference := pyRound3 (variance * (despatches : ℚ))
    { despatches := (despatches : ℤ), spend := spend, avg_cost := avg_cost
      variance := variance, total_difference := total_difference
      status := statusOf variance }

/-- `get_evri_fuel_total` (src/compare.py:230-237): rounded sum of the
values of the extras rows whose service mentions fuel. -/
def get_evri_fuel_total (extras : List EvriRow) : ℚ :=
  pyRound3 (((extras.filter (fun r => containsCI r.service "Fuel")).map
    (fun r => r.value)).sum)

/-- `compute_evri_metrics` (src/compare.py:239-277): count is the sum of
the despatch rows' quantities; zero count short-circuits to the sentinel;
otherwise the fuel supplement is folded into spend before rounding and the
remaining fields follow the same rounded chain as the FedEx aggregator. -/
def compute_evri_metrics (evri_despatch : List EvriRow) (fixed_rate : ℚ)
    (fuel_total : ℚ) : Metrics :=
  let despatches := (evri_despatch.map (fun r => r.quantity)).sum
  if despatches = 0 then noDataMetrics
  else
    let base_spend := (evri_despatch.map (fun r => r.value)).sum
    let spend := pyRound3 (base_spend + fuel_total)
    let avg_cost := pyRound3 (spend / (despatches : ℚ))
    let variance := pyRound3 (avg_cost - fixed_rate)
    let total_difference := pyRound3 (variance * (despatches : ℚ))
    { despatches := despatches, spend := spend, avg_cost := avg_cost
      variance := variance, total_difference := total_difference
      status := statusOf variance }

/-- The FedEx anomaly table `fedex_df[fedex_df["charge"] <= 0]`
(src/compare.py:422), built without removing anything from `fedex_df`. -/
def fedex_anomalies (df : List FedexRow) : List FedexRow :=
  df.filter (fun r => decide (r.charge ≤ 0))

/-- Concrete one-row FedEx table for witnesses. -/
def frow1 : FedexRow :=
  { shipment_number := "123456789", shipment_date := "13/10/2025"
    charge := 4, raw_line := "l", shipment_date_parsed := none }

/-- Concrete anomalous FedEx row (non-positive charge) for witnesses. -/
def frowNeg : FedexRow :=
  { shipment_number := "987654321", shipment_date := "14/10/2025"
    charge := -2, raw_line := "n", shipment_date_parsed := none }

/-- Concrete one-row Evri despatch table for witnesses. -/
def erow1 : EvriRow :=
  { service := "Parcel", quantity := 2, price := 1, value := 2, raw_line := "m" }

/-- Concrete zero-value Evri row for witnesses. -/
def zrow : EvriRow :=
  { service := "Invoice Total", quantity := 0, price := 0, value := 0
    raw_line := "z" }

/-- Concrete return-service Evri row for witnesses. -/
def retrow : EvriRow :=
  { service := "Parcel Return", quantity := 1, price := 3, value := 3
    raw_line := "t" }

/-- Concrete repackaging row from the spec's example. -/
def repackRow : EvriRow :=
  { service := "Parcel Repackaged", quantity := 1, price := 1, value := 2
    raw_line := "a" }

/-- Concrete return row from the spec's example. -/
def returnRow : EvriRow :=
  { service := "Parcel Return Service", quantity := 1, price := 1, value := 2
    raw_line := "b" }

/-- Concrete plain despatch row from the spec's example. -/
def stdRow : EvriRow :=
  { service := "Standard Parcel", quantity := 1, price := 1, value := 2
    raw_line := "c" }

/-- Inversion for `reqRun`. -/
theorem reqRun_inv {p : Char → Bool} {l t r : List Char}
    (h : reqRun p l = some (t, r)) :
    t ≠ [] ∧ t.all p = true ∧ t = l.takeWhile p ∧ r = l.dropWhile p := by
  unfold reqRun at h
  cases htw : l.takeWhile p with
  | nil => rw [htw] at h; exact absurd h (by simp)
  | cons c cs =>
    rw [htw] at h
    obtain ⟨h1, h2⟩ : c :: cs = t ∧ l.dropWhile p = r := by simpa using h
    subst h1
    subst h2
    refine ⟨by simp, ?_, rfl, rfl⟩
    rw [List.all_eq_true]
    intro x hx
    exact List.mem_takeWhile_imp (show x ∈ List.takeWhile p l from htw.symm ▸ hx)

/-- Inversion for `reqChar`. -/
theorem reqChar_inv {p : Char → Bool} {l r : List Char} {c : Char}
    (h : reqChar p l = some (c, r)) :
    p c = true ∧ l = c :: r := by
  unfold reqChar at h
  cases l with
  | nil => exact absurd h (by simp)
  | cons a as =>
    by_cases hp : p a = true
    · simp only [hp, if_true] at h
      obtain ⟨h1, h2⟩ : a = c ∧ as = r := by simpa using h
      exact ⟨h1 ▸ hp, by rw [h1, h2]⟩
    · simp [hp] at h

theorem splitDot_append {a : List Char} (b : List Char)
    (ha : ∀ c ∈ a, ¬c = '.') : splitDot (a ++ '.' :: b) = some (a, b) := by
  induction a with
  | nil => simp [splitDot]
  | cons x xs ih =>
    have hx : ¬x = '.' := ha x (by simp)
    simp only [List.cons_append, splitDot, if_neg hx, List.append_eq]
    rw [ih (fun c hc => ha c (by simp [hc]))]
    rfl

theorem ratOfDecimal?_app {a b : List Char} (hb : b ≠ [])
    (hda : a.all isDigitC = true) (hdb : b.all isDigitC = true) :
    ratOfDecimal? (a ++ '.' :: b) =
      some ((natOfDigits a : ℚ) + (natOfDigits b : ℚ) / (10 : ℚ) ^ b.length) := by
  have hnd : ∀ c ∈ a, ¬c = '.' := by
    intro c hc hcd
    have := (List.all_eq_true.mp hda) c hc
    rw [hcd] at this
    exact absurd this (by decide)
  unfold ratOfDecimal?
  rw [splitDot_append b hnd]
  have hbe : b.isEmpty = false := by cases b with
    | nil => exact absurd rfl hb
    | cons _ _ => rfl
  simp [hda, hdb, hbe]

theorem ratOfDecimal?_nonneg {l : List Char} {q : ℚ}
    (h : ratOfDecimal? l = some q) : 0 ≤ q := by
  unfold ratOfDecimal? at h
  split at h
  · exact absurd h (by simp)
  · split at h
    · have hq := Option.some.inj h
      rw [← hq]
      positivity
    · exact absurd h (by simp)

theorem intOfDigits?_of_digits {l : List Char} (hne : l ≠ [])
    (hd : l.all isDigitC = true) :
    intOfDigits? l = some ((natOfDigits l : ℤ)) := by
  have hbe : l.isEmpty = false := by cases l with
    | nil => exact absurd rfl hne
    | cons _ _ => rfl
  unfold intOfDigits?
  simp [hbe, hd]

theorem stripCommas_all_digit {l : List Char} (h : l.all isDC = true) :
    (stripCommas l).all isDigitC = true := by
  rw [List.all_eq_true]
  intro c hc
  rw [stripCommas, List.mem_filter] at hc
  obtain ⟨hmem, hne⟩ := hc
  have := (List.all_eq_true.mp h) c hmem
  rw [isDC, Bool.or_eq_true] at this
  rcases this with h1 | h2
  · exact h1
  · exact absurd h2 (by simpa using hne)

theorem stripCommas_append (a b : List Char) :
    stripCommas (a ++ b) = stripCommas a ++ stripCommas b :=
  List.filter_append a b

theorem stripCommas_of_digits {l : List Char} (hd : l.all isDigitC = true) :
    stripCommas l = l := by
  rw [stripCommas, List.filter_eq_self]
  intro c hc
  have := (List.all_eq_true.mp hd) c hc
  have hcne : ¬c = ',' := by
    intro hcc
    rw [hcc] at this
    exact absurd this (by decide)
  simpa using hcne

/-- Helper to evaluate `ratOfDecimal?` at a concrete token: the shape facts
are decidable and the resulting arithmetic is then closed by `norm_num`. -/
theorem ratOfDecimal?_eq (a b : List Char) (x y : ℕ) {l : List Char} {q : ℚ}
    (h0 : l = a ++ '.' :: b) (hb : b ≠ []) (hda : a.all isDigitC = true)
    (hdb : b.all isDigitC = true) (hx : natOfDigits a = x) (hy : natOfDigits b = y)
    (hq : (x : ℚ) + (y : ℚ) / (10 : ℚ) ^ b.length = q) :
    ratOfDecimal? l = some q := by
  rw [h0, ratOfDecimal?_app hb hda hdb, hx, hy, hq]

/-- Helper to evaluate `parse_evri_line` once the four groups and the three
conversions are known. -/
theorem parse_evri_line_eval {l : String} {nm q p v : List Char} {n : ℤ} {pr vl : ℚ}
    (hm : evriMatch l.data = some (nm, q, p, v))
    (hq : intOfDigits? (stripCommas q) = some n)
    (hp : ratOfDecimal? p = some pr)
    (hv : ratOfDecimal? (stripCommas v) = some vl) :
    parse_evri_line l =
      .ok { service := (pyStrip nm).asString, quantity := n, price := pr
            value := vl, raw_line := l } := by
  simp only [parse_evri_line, hm, hq, hp, hv]

/-- Helper to evaluate `parse_fedex_line` once the anchor groups, the last
decimal token and its conversion are known. -/
theorem parse_fedex_line_eval {l : String} {num date tok : List Char} {c : ℚ}
    (ha : fedexAnchor l.data = some (num, date))
    (ht : (findDecimals l.data).getLast? = some tok)
    (hc : ratOfDecimal? tok = some c) :
    parse_fedex_line l =
      some { shipment_number := num.asString, shipment_date := date.asString
             charge := c, raw_line := l
             shipment_date_parsed := parseDate? date.asString } := by
  simp only [parse_fedex_line, ha, ht, hc]

/-- Concrete evaluation: the round-trip Evri example. -/
theorem scottish_parse : parse_evri_line scottishLine = .ok scottishRow := by
  have hm : evriMatch scottishLine.data =
      some ("Scottish Highlands & Islands Parcel".data,
        ("36".data, "5.28".data, "190.08".data)) := by decide
  have hq : intOfDigits? (stripCommas ("36".data)) = some 36 := by decide
  have hp : ratOfDecimal? ("5.28".data) = some (132 / 25 : ℚ) :=
    ratOfDecimal?_eq ['5'] ['2', '8'] 5 28 (by decide) (by decide) (by decide)
      (by decide) (by decide) (by decide) (by norm_num)
  have hv : ratOfDecimal? (stripCommas ("190.08".data)) = some (4752 / 25 : ℚ) :=
    ratOfDecimal?_eq ['1', '9', '0'] ['0', '8'] 190 8 (by decide) (by decide)
      (by decide) (by decide) (by decide) (by decide) (by norm_num)
  rw [parse_evri_line_eval hm hq hp hv]
  unfold scottishRow
  simp only [EvriOutcome.ok.injEq, EvriRow.mk.injEq, and_true]
  decide

/-- Concrete evaluation: the round-trip FedEx example. -/
theorem fedexEx_parse : parse_fedex_line fedexExLine = some fedexExRow := by
  have ha : fedexAnchor fedexExLine.data =
      some ("123456789".data, "13/10/2025".data) := by decide
  have ht : (findDecimals fedexExLine.data).getLast? = some ("17.10".data) := by
    decide
  have hc : ratOfDecimal? ("17.10".data) = some (171 / 10 : ℚ) :=
    ratOfDecimal?_eq ['1', '7'] ['1', '0'] 17 10 (by decide) (by decide) (by decide)
      (by decide) (by decide) (by decide) (by norm_num)
  rw [parse_fedex_line_eval ha ht hc]
  unfold fedexExRow
  simp only [Option.some.injEq, FedexRow.mk.injEq, and_true]
  decide

/-- Shape invariant of the tail matcher: the quantity group is a nonempty
run of digits/commas, the price group is `digits.digits`, and the value
group is `digits-or-commas.digits`. -/
theorem tailMatch_inv {l q p v : List Char}
    (h : tailMatch l = some (q, p, v)) :
    (q ≠ [] ∧ q.all isDC = true) ∧
    (∃ a b, p = a ++ '.' :: b ∧ a ≠ [] ∧ b ≠ [] ∧
      a.all isDigitC = true ∧ b.all isDigitC = true) ∧
    (∃ c d, v = c ++ '.' :: d ∧ c ≠ [] ∧ d ≠ [] ∧
      c.all isDC = true ∧ d.all isDigitC = true) := by
  unfold tailMatch at h
  simp only [Option.bind_eq_some, Option.pure_def, Option.some.injEq,
    Prod.exists, Prod.mk.injEq] at h
  obtain ⟨w1, l1, h1, q', l2, h2, w2, l3, h3, a, l4, h4, c1, l5, h5, b, l6, h6,
    w3, l7, h7, u, l8, h8, w4, l9, h9, c, l10, h10, c2, l11, h11, d, l12, h12,
    hq, hp, hv⟩ := h
  obtain ⟨hqne, hqall, -, -⟩ := reqRun_inv h2
  obtain ⟨hane, haall, -, -⟩ := reqRun_inv h4
  obtain ⟨hbne, hball, -, -⟩ := reqRun_inv h6
  obtain ⟨hcne, hcall, -, -⟩ := reqRun_inv h10
  obtain ⟨hdne, hdall, -, -⟩ := reqRun_inv h12
  refine ⟨⟨hq ▸ hqne, hq ▸ hqall⟩, ⟨a, b, hp.symm, hane, hbne, haall, hball⟩,
    ⟨c, d, hv.symm, hcne, hdne, hcall, hdall⟩⟩

/-- Shape invariant of one decimal-token match. -/
theorem tryDec_inv {l t rem : List Char} (h : tryDec l = some (t, rem)) :
    ∃ a b, t = a ++ '.' :: b ∧ a ≠ [] ∧ b ≠ [] ∧
      a.all isDigitC = true ∧ b.all isDigitC = true := by
  unfold tryDec at h
  simp only [Option.bind_eq_some, Option.some.injEq, Prod.exists,
    Prod.mk.injEq] at h
  obtain ⟨a, l1, h1, c1, l2, h2, b, l3, h3, ht, -⟩ := h
  obtain ⟨hane, haall, -, -⟩ := reqRun_inv h1
  obtain ⟨hbne, hball, -, -⟩ := reqRun_inv h3
  exact ⟨a, b, ht.symm, hane, hbne, haall, hball⟩

/-- Every token produced by the findall scan has the decimal shape. -/
theorem findDecimalsFuel_inv :
    ∀ (f : Nat) (l t : List Char), t ∈ findDecimalsFuel f l →
      ∃ a b, t = a ++ '.' :: b ∧ a ≠ [] ∧ b ≠ [] ∧
        a.all isDigitC = true ∧ b.all isDigitC = true := by
  intro f
  induction f with
  | zero => intro l t ht; exact absurd ht (by simp [findDecimalsFuel])
  | succ f ih =>
    intro l t ht
    cases l with
    | nil => exact absurd ht (by simp [findDecimalsFuel])
    | cons c rest =>
      rw [findDecimalsFuel] at ht
      cases htd : tryDec (c :: rest) with
      | none => rw [htd] at ht; exact ih rest t ht
      | some pr =>
        obtain ⟨tok, rem⟩ := pr
        rw [htd] at ht
        rcases List.mem_cons.mp ht with h1 | h2
        · exact h1 ▸ tryDec_inv htd
        · exact ih rem t h2

/-- Every token in `findDecimals` output has the decimal shape. -/
theorem findDecimals_inv {l t : List Char} (ht : t ∈ findDecimals l) :
    ∃ a b, t = a ++ '.' :: b ∧ a ≠ [] ∧ b ≠ [] ∧
      a.all isDigitC = true ∧ b.all isDigitC = true :=
  findDecimalsFuel_inv l.length l t ht

/-- A successful name search embeds a successful tail match. -/
theorem nameSearch_inv :
    ∀ (l acc nm : List Char) (g : List Char × List Char × List Char),
      nameSearch acc l = some (nm, g) → ∃ rest, tailMatch rest = some g := by
  intro l
  induction l with
  | nil => intro acc nm g h; exact absurd h (by simp [nameSearch])
  | cons c rest ih =>
    intro acc nm g h
    rw [nameSearch] at h
    by_cases hc : c = '\n'
    · rw [if_pos hc] at h; exact absurd h (by simp)
    · rw [if_neg hc] at h
      cases htm : tailMatch rest with
      | none => rw [htm] at h; exact ih (acc ++ [c]) nm g h
      | some g' =>
        rw [htm] at h
        obtain ⟨-, hg⟩ : acc ++ [c] = nm ∧ g' = g := by simpa using h
        exact ⟨rest, hg ▸ htm⟩

/-- A successful whitespace-backtracking search embeds a successful tail
match. -/
theorem ksearch_inv (l : List Char) :
    ∀ (k : Nat) (nm : List Char) (g : List Char × List Char × List Char),
      ksearch l k = some (nm, g) → ∃ rest, tailMatch rest = some g := by
  intro k
  induction k with
  | zero => intro nm g h; exact nameSearch_inv l [] nm g h
  | succ k ih =>
    intro nm g h
    rw [ksearch] at h
    cases hns : nameSearch [] (l.drop (k + 1)) with
    | none => rw [hns] at h; exact ih nm g h
    | some r =>
      rw [hns] at h
      obtain ⟨nm', g'⟩ := r
      obtain ⟨-, hg⟩ : nm' = nm ∧ g' = g := by simpa using h
      exact nameSearch_inv (l.drop (k + 1)) [] nm' g (hg ▸ hns)

/-- A successful Evri match embeds a successful tail match, so the three
numeric capture groups satisfy the tail shape invariant. -/
theorem evriMatch_inv {l nm : List Char} {g : List Char × List Char × List Char}
    (h : evriMatch l = some (nm, g)) : ∃ rest, tailMatch rest = some g :=
  ksearch_inv l (l.takeWhile isWSC).length nm g h

/-- Unfolding of the FedEx aggregator when the count is zero. -/
theorem compute_fedex_metrics_zero (df : List FedexRow) (rate : ℚ)
    (h : df.length = 0) : compute_fedex_metrics df rate = noDataMetrics := by
  unfold compute_fedex_metrics
  rw [if_pos h]

/-- Unfolding of the Evri aggregator when the count is zero. -/
theorem compute_evri_metrics_zero (rows : List EvriRow) (rate fuel : ℚ)
    (h : (rows.map (fun r => r.quantity)).sum = 0) :
    compute_evri_metrics rows rate fuel = noDataMetrics := by
  unfold compute_evri_metrics
  rw [if_pos h]

/-- With a positive count the FedEx status is the sign chain applied to the
computed variance. -/
theorem compute_fedex_metrics_status (df : List FedexRow) (rate : ℚ)
    (h : ¬df.length = 0) :
    (compute_fedex_metrics df rate).status =
      statusOf ((compute_fedex_metrics df rate).variance) := by
  unfold compute_fedex_metrics
  rw [if_neg h]

/-- With a positive count the Evri status is the sign chain applied to the
computed variance. -/
theorem compute_evri_metrics_status (rows : List EvriRow) (rate fuel : ℚ)
    (h : ¬(rows.map (fun r => r.quantity)).sum = 0) :
    (compute_evri_metrics rows rate fuel).status =
      statusOf ((compute_evri_metrics rows rate fuel).variance) := by
  unfold compute_evri_metrics
  rw [if_neg h]

/-- The rounded chain of the FedEx aggregator, each field computed from the
already-rounded previous field. -/
theorem compute_fedex_metrics_eqs (df : List FedexRow) (rate : ℚ)
    (h : ¬df.length = 0) :
    (compute_fedex_metrics df rate).despatches = (df.length : ℤ) ∧
    (compute_fedex_metrics df rate).spend =
      pyRound3 ((df.map (fun r => r.charge)).sum) ∧
    (compute_fedex_metrics df rate).avg_cost =
      pyRound3 ((compute_fedex_metrics df rate).spend / (df.length : ℚ)) ∧
    (compute_fedex_metrics df rate).variance =
      pyRound3 ((compute_fedex_metrics df rate).avg_cost - rate) ∧
    (compute_fedex_metrics df rate).total_difference =
      pyRound3 ((compute_fedex_metrics df rate).variance * (df.length : ℚ)) := by
  unfold compute_fedex_metrics
  rw [if_neg h]
  exact ⟨rfl, rfl, rfl, rfl, rfl⟩

/-- The rounded chain of the Evri aggregator, with the fuel supplement
folded into spend before the first rounding. -/
theorem compute_evri_metrics_eqs (rows : List EvriRow) (rate fuel : ℚ)
    (h : ¬(rows.map (fun r => r.quantity)).sum = 0) :
    (compute_evri_metrics rows rate fuel).despatches =
      (rows.map (fun r => r.quantity)).sum ∧
    (compute_evri_metrics rows rate fuel).spend =
      pyRound3 ((rows.map (fun r => r.value)).sum + fuel) ∧
    (compute_evri_metrics rows rate fuel).avg_cost =
      pyRound3 ((compute_evri_metrics rows rate fuel).spend /
        (((rows.map (fun r => r.quantity)).sum : ℤ) : ℚ)) ∧
    (compute_evri_metrics rows rate fuel).variance =
      pyRound3 ((compute_evri_metrics rows rate fuel).avg_cost - rate) ∧
    (compute_evri_metrics rows rate fuel).total_difference =
      pyRound3 ((compute_evri_metrics rows rate fuel).variance *
        (((rows.map (fun r => r.quantity)).sum : ℤ) : ℚ)) := by
  unfold compute_evri_metrics
  rw [if_neg h]
  exact ⟨rfl, rfl, rfl, rfl, rfl⟩

/-- The sign chain `statusOf` maps each sign to its own status string. -/
theorem statusOf_spec (x : ℚ) :
    (statusOf x = "Over the fixed rate" ↔ 0 < x) ∧
    (statusOf x = "Under the fixed rate" ↔ x < 0) ∧
    (statusOf x = "On the fixed rate" ↔ x = 0) := by
  unfold statusOf
  rcases lt_trichotomy x 0 with h | h | h
  · rw [if_neg (by linarith), if_pos h]
    exact ⟨iff_of_false (by decide) (by linarith),
      iff_of_true rfl h, iff_of_false (by decide) (by linarith)⟩
  · rw [if_neg (by linarith), if_neg (by linarith)]
    exact ⟨iff_of_false (by decide) (by linarith),
      iff_of_false (by decide) (by linarith), iff_of_true rfl h⟩
  · rw [if_pos h]
    exact ⟨iff_of_true rfl h, iff_of_false (by decide) (by linarith),
      iff_of_false (by decide) (by linarith)⟩

/-- C5: for both carriers' aggregators, a zero despatch count (empty FedEx
table; Evri quantity sum equal to zero) yields the all-zero no-data
sentinel — count 0, spend 0, average 0, variance 0, total difference 0,
status "No data" — short-circuiting before any division is reached. -/
theorem c5_nodata_sentinel :
    (∀ (df : List FedexRow) (rate : ℚ), df.length = 0 →
      compute_fedex_metrics df rate =
        { despatches := 0, spend := 0, avg_cost := 0, variance := 0
          total_difference := 0, status := "No data" }) ∧
    (∀ (rows : List EvriRow) (rate fuel : ℚ),
      (rows.map (fun r => r.quantity)).sum = 0 →
      compute_evri_metrics rows rate fuel =
        { despatches := 0, spend := 0, avg_cost := 0, variance := 0
          total_difference := 0, status := "No data" }) :=
  ⟨fun df rate h => compute_fedex_metrics_zero df rate h,
   fun rows rate fuel h => compute_evri_metrics_zero rows rate fuel h⟩

/-- Witness for C5 at the empty tables. -/
theorem c5_nodata_sentinel_witness :
    compute_fedex_metrics [] 3 =
      { despatches := 0, spend := 0, avg_cost := 0, variance := 0
        total_difference := 0, status := "No data" } ∧
    compute_evri_metrics [] 3 0 =
      { despatches := 0, spend := 0, avg_cost := 0, variance := 0
        total_difference := 0, status := "No data" } :=
  ⟨c5_nodata_sentinel.1 [] 3 rfl, c5_nodata_sentinel.2 [] 3 0 rfl⟩

/-- C6: with a positive count, both aggregators derive the status exactly
from the sign of the rounded variance with strict inequalities: positive
variance gives the over-rate status, negative the under-rate status, and
zero gives the on-rate status as its own branch. -/
theorem c6_status_from_variance_sign :
    (∀ (df : List FedexRow) (rate : ℚ), df.length ≠ 0 →
      ((compute_fedex_metrics df rate).status = "Over the fixed rate" ↔
        0 < (compute_fedex_metrics df rate).variance) ∧
      ((compute_fedex_metrics df rate).status = "Under the fixed rate" ↔
        (compute_fedex_metrics df rate).variance < 0) ∧
      ((compute_fedex_metrics df rate).status = "On the fixed rate" ↔
        (compute_fedex_metrics df rate).variance = 0)) ∧
    (∀ (rows : List EvriRow) (rate fuel : ℚ),
      (rows.map (fun r => r.quantity)).sum ≠ 0 →
      ((compute_evri_metrics rows rate fuel).status = "Over the fixed rate" ↔
        0 < (compute_evri_metrics rows rate fuel).variance) ∧
      ((compute_evri_metrics rows rate fuel).status = "Under the fixed rate" ↔
        (compute_evri_metrics rows rate fuel).variance < 0) ∧
      ((compute_evri_metrics rows rate fuel).status = "On the fixed rate" ↔
        (compute_evri_metrics rows rate fuel).variance = 0)) := by
  constructor
  · intro df rate h
    rw [compute_fedex_metrics_status df rate h]
    exact statusOf_spec _
  · intro rows rate fuel h
    rw [compute_evri_metrics_status rows rate fuel h]
    exact statusOf_spec _

/-- Witness for C6 at one-row tables. -/
theorem c6_status_from_variance_sign_witness :
    (((compute_fedex_metrics
        [{ shipment_number := "123456789", shipment_date := "13/10/2025"
           charge := 4, raw_line := "l", shipment_date_parsed := none }] 3).status =
        "Over the fixed rate" ↔
      0 < (compute_fedex_metrics
        [{ shipment_number := "123456789", shipment_date := "13/10/2025"
           charge := 4, raw_line := "l", shipment_date_parsed := none }] 3).variance) ∧
     ((compute_fedex_metrics
        [{ shipment_number := "123456789", shipment_date := "13/10/2025"
           charge := 4, raw_line := "l", shipment_date_parsed := none }] 3).status =
        "Under the fixed rate" ↔
      (compute_fedex_metrics
        [{ shipment_number := "123456789", shipment_date := "13/10/2025"
           charge := 4, raw_line := "l", shipment_date_parsed := none }] 3).variance < 0) ∧
     ((compute_fedex_metrics
        [{ shipment_number := "123456789", shipment_date := "13/10/2025"
           charge := 4, raw_line := "l", shipment_date_parsed := none }] 3).status =
        "On the fixed rate" ↔
      (compute_fedex_metrics
        [{ shipment_number := "123456789", shipment_date := "13/10/2025"
           charge := 4, raw_line := "l", shipment_date_parsed := none }] 3).variance = 0)) ∧
    (((compute_evri_metrics
        [{ service := "Parcel", quantity := 2, price := 1, value := 2
           raw_line := "m" }] 3 0).status = "Over the fixed rate" ↔
      0 < (compute_evri_metrics
        [{ service := "Parcel", quantity := 2, price := 1, value := 2
           raw_line := "m" }] 3 0).variance) ∧
     ((compute_evri_metrics
        [{ service := "Parcel", quantity := 2, price := 1, value := 2
           raw_line := "m" }] 3 0).status = "Under the fixed rate" ↔
      (compute_evri_metrics
        [{ service := "Parcel", quantity := 2, price := 1, value := 2
           raw_line := "m" }] 3 0).variance < 0) ∧
     ((compute_evri_metrics
        [{ service := "Parcel", quantity := 2, price := 1, value := 2
           raw_line := "m" }] 3 0).status = "On the fixed rate" ↔
      (compute_evri_metrics
        [{ service := "Parcel", quantity := 2, price := 1, value := 2
           raw_line := "m" }] 3 0).variance = 0)) :=
  ⟨c6_status_from_variance_sign.1 _ 3 (by decide),
   c6_status_from_variance_sign.2 _ 3 0 (by decide)⟩

/-- C7: with a positive count the metrics follow the rounded chain —
spend is the rounded sum of the monetary field (plus the fuel supplement
for Evri), the average is the rounded quotient of the already-rounded
spend, the variance the rounded difference of the already-rounded average
and the fixed rate, and the total difference the rounded product of the
already-rounded variance and the count; e.g. 100.00 despatch spend plus a
20.00 fuel supplement over 40 despatches at fixed rate 2.44 gives spend
120.00, average 3.00, variance 0.56 and the over-rate status. -/
theorem c7_rounded_chain :
    (∀ (df : List FedexRow) (rate : ℚ), df.length ≠ 0 →
      (compute_fedex_metrics df rate).spend =
        pyRound3 ((df.map (fun r => r.charge)).sum) ∧
      (compute_fedex_metrics df rate).avg_cost =
        pyRound3 ((compute_fedex_metrics df rate).spend / (df.length : ℚ)) ∧
      (compute_fedex_metrics df rate).variance =
        pyRound3 ((compute_fedex_metrics df rate).avg_cost - rate) ∧
      (compute_fedex_metrics df rate).total_difference =
        pyRound3 ((compute_fedex_metrics df rate).variance * (df.length : ℚ))) ∧
    (∀ (rows : List EvriRow) (rate fuel : ℚ),
      (rows.map (fun r => r.quantity)).sum ≠ 0 →
      (compute_evri_metrics rows rate fuel).spend =
        pyRound3 ((rows.map (fun r => r.value)).sum + fuel) ∧
      (compute_evri_metrics rows rate fuel).avg_cost =
        pyRound3 ((compute_evri_metrics rows rate fuel).spend /
          (((rows.map (fun r => r.quantity)).sum : ℤ) : ℚ)) ∧
      (compute_evri_metrics rows rate fuel).variance =
        pyRound3 ((compute_evri_metrics rows rate fuel).avg_cost - rate) ∧
      (compute_evri_metrics rows rate fuel).total_difference =
        pyRound3 ((compute_evri_metrics rows rate fuel).variance *
          (((rows.map (fun r => r.quantity)).sum : ℤ) : ℚ))) ∧
    compute_evri_metrics
      [{ service := "Parcel", quantity := 40, price := 5 / 2, value := 100
         raw_line := "x" }] (244 / 100) 20 =
      { despatches := 40, spend := 120, avg_cost := 3, variance := 14 / 25
        total_difference := 112 / 5, status := "Over the fixed rate" } := by
  refine ⟨fun df rate h => ?_, fun rows rate fuel h => ?_, ?_⟩
  · obtain ⟨-, h1, h2, h3, h4⟩ := compute_fedex_metrics_eqs df rate h
    exact ⟨h1, h2, h3, h4⟩
  · obtain ⟨-, h1, h2, h3, h4⟩ := compute_evri_metrics_eqs rows rate fuel h
    exact ⟨h1, h2, h3, h4⟩
  · simp only [compute_evri_metrics, List.map_cons, List.map_nil,
      List.sum_cons, List.sum_nil]
    norm_num [pyRound3, statusOf, Metrics.mk.injEq]

/-- Witness for C7 at one-row tables. -/
theorem c7_rounded_chain_witness :
    ((compute_fedex_metrics [frow1] 3).spend =
        pyRound3 (([frow1].map (fun r => r.charge)).sum) ∧
      (compute_fedex_metrics [frow1] 3).avg_cost =
        pyRound3 ((compute_fedex_metrics [frow1] 3).spend / (([frow1] : List FedexRow).length : ℚ)) ∧
      (compute_fedex_metrics [frow1] 3).variance =
        pyRound3 ((compute_fedex_metrics [frow1] 3).avg_cost - 3) ∧
      (compute_fedex_metrics [frow1] 3).total_difference =
        pyRound3 ((compute_fedex_metrics [frow1] 3).variance * (([frow1] : List FedexRow).length : ℚ))) ∧
    ((compute_evri_metrics [erow1] 3 1).spend =
        pyRound3 (([erow1].map (fun r => r.value)).sum + 1) ∧
      (compute_evri_metrics [erow1] 3 1).avg_cost =
        pyRound3 ((compute_evri_metrics [erow1] 3 1).spend /
          ((([erow1].map (fun r => r.quantity)).sum : ℤ) : ℚ)) ∧
      (compute_evri_metrics [erow1] 3 1).variance =
        pyRound3 ((compute_evri_metrics [erow1] 3 1).avg_cost - 3) ∧
      (compute_evri_metrics [erow1] 3 1).total_difference =
        pyRound3 ((compute_evri_metrics [erow1] 3 1).variance *
          ((([erow1].map (fun r => r.quantity)).sum : ℤ) : ℚ))) :=
  ⟨c7_rounded_chain.1 [frow1] 3 (by decide),
   c7_rounded_chain.2.1 [erow1] 3 1 (by decide)⟩

/-- C10 (implicit): FedEx anomaly detection does not remove records from
aggregation — the anomalies table is a filtered copy (every anomaly is
still a row of the main table and has non-positive charge, and anomalies
plus the remaining rows are a permutation of the main table), while the
metrics count every extracted row and sum every charge, anomalous rows
included. -/
theorem c10_anomalies_not_removed (df : List FedexRow) (rate : ℚ)
    (h : df.length ≠ 0) :
    (fedex_anomalies df).Sublist df ∧
    (fedex_anomalies df).all (fun r => decide (r.charge ≤ 0)) = true ∧
    (fedex_anomalies df ++ df.filter (fun r => !decide (r.charge ≤ 0))).Perm df ∧
    (compute_fedex_metrics df rate).despatches = (df.length : ℤ) ∧
    (compute_fedex_metrics df rate).spend =
      pyRound3 ((df.map (fun r => r.charge)).sum) := by
  obtain ⟨h0, h1, -, -, -⟩ := compute_fedex_metrics_eqs df rate h
  refine ⟨List.filter_sublist df, ?_, List.filter_append_perm _ df, h0, h1⟩
  rw [List.all_eq_true]
  intro r hr
  exact (List.mem_filter.mp hr).2

/-- Witness for C10 at a two-row table with one anomalous record. -/
theorem c10_anomalies_not_removed_witness :
    (fedex_anomalies [frow1, frowNeg]).Sublist [frow1, frowNeg] ∧
    (fedex_anomalies [frow1, frowNeg]).all (fun r => decide (r.charge ≤ 0)) = true ∧
    (fedex_anomalies [frow1, frowNeg] ++
      ([frow1, frowNeg] : List FedexRow).filter (fun r => !decide (r.charge ≤ 0))).Perm
      [frow1, frowNeg] ∧
    (compute_fedex_metrics [frow1, frowNeg] 3).despatches =
      ((([frow1, frowNeg] : List FedexRow)).length : ℤ) ∧
    (compute_fedex_metrics [frow1, frowNeg] 3).spend =
      pyRound3 (([frow1, frowNeg].map (fun r => r.charge)).sum) :=
  c10_anomalies_not_removed [frow1, frowNeg] 3 (by decide)

/-- C3: on every qualifying FedEx line (anchored run of at least nine
digits, whitespace, a dd/mm/yyyy token) that contains a decimal-with-
fraction token, the extracted charge is the conversion of the last such
token in line order. -/
theorem c3_charge_is_last_decimal (line : String) (num date : List Char)
    (ha : fedexAnchor line.data = some (num, date))
    (hne : findDecimals line.data ≠ []) :
    ∃ tok c, (findDecimals line.data).getLast? = some tok ∧
      ratOfDecimal? tok = some c ∧
      parse_fedex_line line =
        some { shipment_number := num.asString, shipment_date := date.asString
               charge := c, raw_line := line
               shipment_date_parsed := parseDate? date.asString } := by
  cases hlast : (findDecimals line.data).getLast? with
  | none => exact absurd (List.getLast?_eq_none_iff.mp hlast) hne
  | some tok =>
    have hmem : tok ∈ findDecimals line.data := by
      obtain ⟨ys, hys⟩ := List.getLast?_eq_some_iff.mp hlast
      rw [hys]
      exact List.mem_append_right ys (by simp)
    obtain ⟨a, b, hsh, hane, hbne, haall, hball⟩ := findDecimals_inv hmem
    have hc : ratOfDecimal? tok =
        some ((natOfDigits a : ℚ) + (natOfDigits b : ℚ) / (10 : ℚ) ^ b.length) := by
      rw [hsh]
      exact ratOfDecimal?_app hbne haall hball
    exact ⟨tok, _, rfl, hc, parse_fedex_line_eval ha hlast hc⟩

/-- Witness for C3 at the spec's round-trip example line: the charge is
17.10, the last decimal token, not the earlier 2.50. -/
theorem c3_charge_is_last_decimal_witness :
    (∃ tok c, (findDecimals fedexExLine.data).getLast? = some tok ∧
      ratOfDecimal? tok = some c ∧
      parse_fedex_line fedexExLine =
        some { shipment_number := ("123456789".data).asString
               shipment_date := ("13/10/2025".data).asString
               charge := c, raw_line := fedexExLine
               shipment_date_parsed := parseDate? (("13/10/2025".data).asString) }) ∧
    parse_fedex_line fedexExLine = some fedexExRow ∧
    fedexExRow.charge = 171 / 10 :=
  ⟨c3_charge_is_last_decimal fedexExLine "123456789".data "13/10/2025".data
      (by decide) (by decide),
   fedexEx_parse, rfl⟩

/-- C8: a FedEx line whose anchored shipment-number/date head matches but
which contains no decimal-with-fraction token anywhere is silently
dropped: the classifier returns nothing rather than raising. -/
theorem c8_no_decimal_token_dropped (line : String) (num date : List Char)
    (ha : fedexAnchor line.data = some (num, date))
    (hz : findDecimals line.data = []) :
    parse_fedex_line line = none := by
  simp only [parse_fedex_line, ha, hz, List.getLast?_nil]

/-- Witness for C8 at a line with a qualifying head and no decimals. -/
theorem c8_no_decimal_token_dropped_witness :
    parse_fedex_line "123456789 13/10/2025 Manual adjustment" = none :=
  c8_no_decimal_token_dropped "123456789 13/10/2025 Manual adjustment"
    "123456789".data "13/10/2025".data (by decide) (by decide)

/-- C9: on every qualifying FedEx line with a decimal token, a record is
produced whose raw date string is the captured date token unchanged and
whose structured date field is exactly the fallible date parse — in
particular, when the captured token is not a valid calendar date the
record is still produced, with the structured field absent. -/
theorem c9_bad_date_retained (line : String) (num date : List Char)
    (ha : fedexAnchor line.data = some (num, date))
    (hne : findDecimals line.data ≠ []) :
    ∃ r, parse_fedex_line line = some r ∧
      r.shipment_date = date.asString ∧
      r.shipment_date_parsed = parseDate? date.asString ∧
      (parseDate? date.asString = none → r.shipment_date_parsed = none) := by
  obtain ⟨tok, c, hlast, hc, hparse⟩ :=
    c3_charge_is_last_decimal line num date ha hne
  exact ⟨_, hparse, rfl, rfl, fun h => h⟩

/-- Witness for C9 at a line whose captured date token (31 February) is
not a valid calendar date: the record is still produced, the raw token is
kept and the structured field is absent. -/
theorem c9_bad_date_retained_witness :
    parseDate? (("31/02/2025".data).asString) = none ∧
    (∃ r, parse_fedex_line "987654321 31/02/2025 Handling 9.99" = some r ∧
      r.shipment_date = ("31/02/2025".data).asString ∧
      r.shipment_date_parsed = parseDate? (("31/02/2025".data).asString) ∧
      (parseDate? (("31/02/2025".data).asString) = none →
        r.shipment_date_parsed = none)) :=
  ⟨by decide,
   c9_bad_date_retained "987654321 31/02/2025 Handling 9.99"
     "987654321".data "31/02/2025".data (by decide) (by decide)⟩

/-- Rows with nonnegative value are partitioned, up to permutation, by the
three Evri bucket predicates: value zero, positive-and-despatch-mask,
positive-and-not-despatch-mask. -/
theorem evri_partition_perm (rs : List EvriRow)
    (h : ∀ r ∈ rs, 0 ≤ r.value) :
    (rs.filter (fun r => decide (r.value = 0)) ++
      ((rs.filter (fun r => decide (0 < r.value))).filter despatchMask ++
        (rs.filter (fun r => decide (0 < r.value))).filter
          (fun r => !despatchMask r))).Perm rs := by
  induction rs with
  | nil => simp
  | cons x xs ih =>
    have hx := h x (List.mem_cons_self x xs)
    have hxs : ∀ r ∈ xs, 0 ≤ r.value := fun r hr => h r (List.mem_cons_of_mem x hr)
    have hperm := ih hxs
    rcases eq_or_lt_of_le hx with heq | hlt
    · have e1 : decide (x.value = 0) = true := decide_eq_true heq.symm
      have e2 : decide (0 < x.value) = false := by
        rw [decide_eq_false_iff_not, ← heq]
        exact lt_irrefl 0
      simp only [List.filter_cons, e1, e2, if_true, if_false, Bool.false_eq_true,
        List.cons_append]
      exact hperm.cons x
    · have e1 : decide (x.value = 0) = false := by
        rw [decide_eq_false_iff_not]
        exact ne_of_gt hlt
      have e2 : decide (0 < x.value) = true := decide_eq_true hlt
      cases hm : despatchMask x with
      | true =>
        simp only [List.filter_cons, e1, e2, hm, if_true, if_false,
          Bool.false_eq_true, Bool.not_true, List.cons_append]
        exact List.Perm.trans List.perm_middle (hperm.cons x)
      | false =>
        simp only [List.filter_cons, e1, e2, hm, if_true, if_false,
          Bool.false_eq_true, Bool.not_false, List.cons_append]
        exact ((List.Perm.append_left _ List.perm_middle).trans
          List.perm_middle).trans (hperm.cons x)

/-- C1: every record the Evri classifier extracts has nonnegative value
(the value capture group cannot carry a sign), and on any table of such
records the categorizer's three buckets — excluded, despatch, extra — are
pairwise disjoint and together are a permutation of the whole table, so
every extracted record lands in exactly one bucket. -/
theorem c1_partition :
    (∀ (line : String) (r : EvriRow),
      parse_evri_line line = EvriOutcome.ok r → 0 ≤ r.value) ∧
    (∀ rs : List EvriRow, (∀ r ∈ rs, 0 ≤ r.value) →
      ((clean_evri rs).2 ++
        ((split_evri_core (clean_evri rs).1).1 ++
          (split_evri_core (clean_evri rs).1).2)).Perm rs ∧
      ((clean_evri rs).2).Disjoint (split_evri_core (clean_evri rs).1).1 ∧
      ((clean_evri rs).2).Disjoint (split_evri_core (clean_evri rs).1).2 ∧
      ((split_evri_core (clean_evri rs).1).1).Disjoint
        (split_evri_core (clean_evri rs).1).2) := by
  constructor
  · intro line r h
    unfold parse_evri_line at h
    cases hm : evriMatch line.data with
    | none => simp [hm] at h
    | some g =>
      obtain ⟨nm, q, p, v⟩ := g
      simp only [hm] at h
      cases hq : intOfDigits? (stripCommas q) with
      | none => simp [hq] at h
      | some n =>
        simp only [hq] at h
        cases hp : ratOfDecimal? p with
        | none => simp [hp] at h
        | some pr =>
          simp only [hp] at h
          cases hv : ratOfDecimal? (stripCommas v) with
          | none => simp [hv] at h
          | some vl =>
            simp only [hv, EvriOutcome.ok.injEq] at h
            rw [← h]
            exact ratOfDecimal?_nonneg hv
  · intro rs h
    refine ⟨evri_partition_perm rs h, ?_, ?_, ?_⟩
    · intro a h1 h2
      have hz : a.value = 0 := of_decide_eq_true (List.mem_filter.mp h1).2
      have hpos : 0 < a.value :=
        of_decide_eq_true (List.mem_filter.mp (List.mem_filter.mp h2).1).2
      rw [hz] at hpos
      exact lt_irrefl 0 hpos
    · intro a h1 h2
      have hz : a.value = 0 := of_decide_eq_true (List.mem_filter.mp h1).2
      have hpos : 0 < a.value :=
        of_decide_eq_true (List.mem_filter.mp (List.mem_filter.mp h2).1).2
      rw [hz] at hpos
      exact lt_irrefl 0 hpos
    · intro a h1 h2
      have hmt : despatchMask a = true := (List.mem_filter.mp h1).2
      have hmf : (!despatchMask a) = true := (List.mem_filter.mp h2).2
      rw [hmt] at hmf
      exact absurd hmf (by decide)

/-- Witness for C1: the extracted example record has nonnegative value,
and on a concrete three-row table the buckets partition the table. -/
theorem c1_partition_witness :
    (0 : ℚ) ≤ scottishRow.value ∧
    ((clean_evri [erow1, zrow, retrow]).2 ++
      ((split_evri_core (clean_evri [erow1, zrow, retrow]).1).1 ++
        (split_evri_core (clean_evri [erow1, zrow, retrow]).1).2)).Perm
      [erow1, zrow, retrow] ∧
    ((clean_evri [erow1, zrow, retrow]).2).Disjoint
      (split_evri_core (clean_evri [erow1, zrow, retrow]).1).1 ∧
    ((clean_evri [erow1, zrow, retrow]).2).Disjoint
      (split_evri_core (clean_evri [erow1, zrow, retrow]).1).2 ∧
    ((split_evri_core (clean_evri [erow1, zrow, retrow]).1).1).Disjoint
      (split_evri_core (clean_evri [erow1, zrow, retrow]).1).2 :=
  ⟨c1_partition.1 scottishLine scottishRow scottish_parse,
   (c1_partition.2 [erow1, zrow, retrow] (by decide)).1,
   (c1_partition.2 [erow1, zrow, retrow] (by decide)).2.1,
   (c1_partition.2 [erow1, zrow, retrow] (by decide)).2.2.1,
   (c1_partition.2 [erow1, zrow, retrow] (by decide)).2.2.2⟩

/-- The despatch mask unfolded into the three keyword conditions. -/
theorem despatchMask_iff (r : EvriRow) :
    despatchMask r = true ↔
      ((containsCI r.service "Despatch" = true ∨
        containsCI r.service "Parcel" = true ∨
        containsCI r.service "Packet" = true) ∧
       containsCI r.service "Return" = false ∧
       containsCI r.service "Repackaged" = false) := by
  unfold despatchMask despatchLike returnMask repackMask
  simp only [Bool.and_eq_true, Bool.or_eq_true, Bool.not_eq_true']
  tauto

/-- C4: a non-excluded record is a despatch row exactly when its service
name contains, case-insensitively, one of "Despatch", "Parcel" or
"Packet" and contains neither "Return" nor "Repackaged"; every other core
record is an extra row.  In particular "Parcel Repackaged" and "Parcel
Return Service" land in extra while "Standard Parcel" lands in
despatch. -/
theorem c4_despatch_criterion :
    (∀ (core : List EvriRow) (r : EvriRow),
      r ∈ (split_evri_core core).1 ↔
        r ∈ core ∧
          ((containsCI r.service "Despatch" = true ∨
            containsCI r.service "Parcel" = true ∨
            containsCI r.service "Packet" = true) ∧
           containsCI r.service "Return" = false ∧
           containsCI r.service "Repackaged" = false)) ∧
    (∀ (core : List EvriRow) (r : EvriRow),
      r ∈ (split_evri_core core).2 ↔
        r ∈ core ∧
          ¬((containsCI r.service "Despatch" = true ∨
             containsCI r.service "Parcel" = true ∨
             containsCI r.service "Packet" = true) ∧
            containsCI r.service "Return" = false ∧
            containsCI r.service "Repackaged" = false)) ∧
    split_evri_core [repackRow, returnRow, stdRow] =
      ([stdRow], [repackRow, returnRow]) := by
  refine ⟨?_, ?_, by decide⟩
  · intro core r
    show r ∈ core.filter despatchMask ↔ _
    rw [List.mem_filter]
    exact and_congr_right fun _ => despatchMask_iff r
  · intro core r
    show r ∈ core.filter (fun x => !despatchMask x) ↔ _
    rw [List.mem_filter, Bool.not_eq_true', Bool.eq_false_iff]
    exact and_congr_right fun _ => not_congr (despatchMask_iff r)

/-- Counterexample to C2 as stated: on the line `"x , 1.00 S 2.00"` the
five-part shape matches with quantity group `","`, and the classifier
neither returns a record nor returns nothing — the integer conversion of
the comma-stripped quantity group raises (`int("")`), reported here as
`valueError`. -/
theorem c2_counterexample :
    evriMatch ("x , 1.00 S 2.00").data =
      some ("x".data, (",".data, "1.00".data, "2.00".data)) ∧
    parse_evri_line "x , 1.00 S 2.00" = EvriOutcome.valueError :=
  ⟨by decide, by decide⟩

/-- C2 as amended: the classifier returns nothing on every non-matching
line; on a matching line whose quantity group still contains a digit after
comma-stripping, all three numeric conversions succeed and exactly one
complete record is returned; when the matched quantity group consists of
grouping commas only, the integer conversion fails and the classifier
raises instead of returning. -/
theorem c2_classifier_total_amended (line : String) :
    (evriMatch line.data = none → parse_evri_line line = EvriOutcome.noMatch) ∧
    (∀ nm q p v, evriMatch line.data = some (nm, (q, p, v)) →
      (stripCommas q = [] → parse_evri_line line = EvriOutcome.valueError) ∧
      (stripCommas q ≠ [] →
        ∃ n pr vl, intOfDigits? (stripCommas q) = some n ∧
          ratOfDecimal? p = some pr ∧
          ratOfDecimal? (stripCommas v) = some vl ∧
          parse_evri_line line =
            EvriOutcome.ok { service := (pyStrip nm).asString, quantity := n
                             price := pr, value := vl, raw_line := line })) := by
  constructor
  · intro h
    unfold parse_evri_line
    rw [h]
  · intro nm q p v hm
    obtain ⟨rest, htail⟩ := evriMatch_inv hm
    obtain ⟨⟨hqne, hqall⟩, ⟨a, b, hps, hane, hbne, haall, hball⟩,
      ⟨c, d, hvs, hcne, hdne, hcall, hdall⟩⟩ := tailMatch_inv htail
    constructor
    · intro hq0
      have hnone : intOfDigits? (stripCommas q) = none := by rw [hq0]; rfl
      simp only [parse_evri_line, hm, hnone]
    · intro hqne'
      have hq : intOfDigits? (stripCommas q) =
          some ((natOfDigits (stripCommas q) : ℤ)) :=
        intOfDigits?_of_digits hqne' (stripCommas_all_digit hqall)
      have hpr : ratOfDecimal? p =
          some ((natOfDigits a : ℚ) + (natOfDigits b : ℚ) / (10 : ℚ) ^ b.length) := by
        rw [hps]
        exact ratOfDecimal?_app hbne haall hball
      have hsd : stripCommas d = d := stripCommas_of_digits hdall
      have hsv : stripCommas v = stripCommas c ++ '.' :: d :=
        calc stripCommas v = stripCommas (c ++ '.' :: d) := by rw [hvs]
          _ = stripCommas c ++ stripCommas ('.' :: d) := stripCommas_append c ('.' :: d)
          _ = stripCommas c ++ '.' :: stripCommas d := by
                unfold stripCommas
                rw [List.filter_cons, if_pos (by decide)]
          _ = stripCommas c ++ '.' :: d := by rw [hsd]
      have hvl : ratOfDecimal? (stripCommas v) =
          some ((natOfDigits (stripCommas c) : ℚ) +
            (natOfDigits d : ℚ) / (10 : ℚ) ^ d.length) := by
        rw [hsv]
        exact ratOfDecimal?_app hdne (stripCommas_all_digit hcall) hdall
      exact ⟨_, _, _, hq, hpr, hvl, parse_evri_line_eval hm hq hpr hvl⟩

/-- Witness for the amended C2 at the spec's round-trip Evri line. -/
theorem c2_classifier_total_amended_witness :
    ∃ n pr vl,
      intOfDigits? (stripCommas ("36".data)) = some n ∧
      ratOfDecimal? ("5.28".data) = some pr ∧
      ratOfDecimal? (stripCommas ("190.08".data)) = some vl ∧
      parse_evri_line scottishLine =
        EvriOutcome.ok
          { service := (pyStrip ("Scottish Highlands & Islands Parcel".data)).asString
            quantity := n, price := pr, value := vl, raw_line := scottishLine } :=
  ((c2_classifier_total_amended scottishLine).2
    "Scottish Highlands & Islands Parcel".data
    "36".data "5.28".data "190.08".data (by decide)).2 (by decide)
